import Mathlib

/-!
Verification of the financial projection engine of the
Worker-to-Investor Challenge calculator (`calculator.js`).

The numeric core is embedded shallowly: JavaScript numbers become exact
rationals (`ℚ`), `Math.round` becomes `jsRound` (floor of `q + 1/2`,
JavaScript's round-half-toward-positive-infinity semantics), the
`Infinity` bracket ceiling becomes `Option ℚ` with `none` standing for
`Infinity`, and the blank (`''`) wealth field becomes `Option ℚ` with
`none` standing for the empty string.
-/

namespace WorkerToInvestor

/-! ## Configuration constants (`APP_CONFIG.FINANCIAL`) -/

def WEALTH_SPENDING_RATE : ℚ := 5 / 100

def AFTER_TAX_SPENDING_RATE : ℚ := 5 / 10

def DEFAULT_SAVINGS_RATE : ℚ := 1 / 10

def INVESTMENT_RETURN_RATE : ℚ := 7 / 100

def WITHDRAWAL_RATE : ℚ := 5 / 100

def PROJECTION_YEARS : ℕ := 15

/-! ## Tax bracket tables (`APP_CONFIG.TAX_BRACKETS`)

A bracket is `{ threshold, rate }`; `threshold = none` models the
JavaScript `Infinity` ceiling of the final bracket. -/

structure Bracket where
  threshold : Option ℚ
  rate : ℚ
deriving DecidableEq

def singleBrackets : List Bracket :=
  [⟨some 11925, 10/100⟩, ⟨some 48475, 12/100⟩, ⟨some 103350, 22/100⟩,
   ⟨some 197300, 24/100⟩, ⟨some 250525, 32/100⟩, ⟨some 626350, 35/100⟩,
   ⟨none, 37/100⟩]

def marriedJointlyBrackets : List Bracket :=
  [⟨some 23850, 10/100⟩, ⟨some 96950, 12/100⟩, ⟨some 206700, 22/100⟩,
   ⟨some 394600, 24/100⟩, ⟨some 501050, 32/100⟩, ⟨some 751600, 35/100⟩,
   ⟨none, 37/100⟩]

def marriedSeparatelyBrackets : List Bracket :=
  [⟨some 11925, 10/100⟩, ⟨some 48475, 12/100⟩, ⟨some 103350, 22/100⟩,
   ⟨some 197300, 24/100⟩, ⟨some 250525, 32/100⟩, ⟨some 375800, 35/100⟩,
   ⟨none, 37/100⟩]

def headOfHouseholdBrackets : List Bracket :=
  [⟨some 17000, 10/100⟩, ⟨some 64850, 12/100⟩, ⟨some 103350, 22/100⟩,
   ⟨some 197300, 24/100⟩, ⟨some 250500, 32/100⟩, ⟨some 626350, 35/100⟩,
   ⟨none, 37/100⟩]

def TAX_BRACKETS : String → Option (List Bracket)
  | "single" => some singleBrackets
  | "marriedJointly" => some marriedJointlyBrackets
  | "marriedSeparately" => some marriedSeparatelyBrackets
  | "headOfHousehold" => some headOfHouseholdBrackets
  | _ => none

/-- JavaScript `Math.round`: nearest integer, halves toward positive
infinity, i.e. `⌊q + 1/2⌋`. -/
def jsRound (q : ℚ) : ℤ :=
  Int.floor (q + 1/2)

/-! ## `TaxCalculator.calculateFederalTax` (calculator.js lines 267-287)

The `for (const bracket of brackets)` loop carries `previousThreshold`
(starting at 0, becoming the bracket's threshold after each iteration;
`Option ℚ` because it becomes `Infinity` after the final bracket) and the
accumulated `totalTax`, breaking as soon as `income <= previousThreshold`. -/

def fedTaxLoop (income : ℚ) : List Bracket → Option ℚ → ℚ → ℚ
  | [], _, totalTax => totalTax
  | _ :: _, none, totalTax => totalTax
  | b :: rest, some prev, totalTax =>
    if income ≤ prev then totalTax
    else
      let ceiling : ℚ :=
        match b.threshold with
        | some t => min income t
        | none => income
      fedTaxLoop income rest b.threshold (totalTax + (ceiling - prev) * b.rate)

def calculateFederalTax (income : ℚ) (filingStatus : String) : ℤ :=
  match TAX_BRACKETS filingStatus with
  | none => 0
  | some brackets =>
    if income ≤ 0 then 0
    else jsRound (fedTaxLoop income brackets (some 0) 0)

/-! ## JavaScript property-lookup semantics of the bracket table

`TAX_BRACKETS` above returns the bracket table for the four own keys of
`APP_CONFIG.TAX_BRACKETS` and `none` otherwise, which is exact at the
four recognized keys.  The actual JavaScript expression
`APP_CONFIG.TAX_BRACKETS[filingStatus]`, however, also consults the
prototype chain: for a member of `Object.prototype` such as
`"constructor"` or `"toString"` it resolves to a truthy, non-iterable
value, so the `!`-guard at calculator.js line 269 does not fire and the
`for (const bracket of brackets)` at line 278 throws a `TypeError`
whenever `income > 0`.  The refinement below makes that error path
explicit. -/

/-- Result of the JavaScript lookup `APP_CONFIG.TAX_BRACKETS[filingStatus]`:
an own bracket table, a truthy non-iterable value inherited from
`Object.prototype`, or `undefined`. -/
inductive LookupResult where
  | table : List Bracket → LookupResult
  | inherited : LookupResult
  | absent : LookupResult
deriving DecidableEq

/-- Member names of `Object.prototype` in a standard JavaScript
environment; looking any of them up on a plain object yields a truthy,
non-iterable value (a function, or the prototype object for
`"__proto__"`). -/
def OBJECT_PROTOTYPE_MEMBERS : List String :=
  ["constructor", "hasOwnProperty", "isPrototypeOf", "propertyIsEnumerable",
   "toLocaleString", "toString", "valueOf", "__proto__",
   "__defineGetter__", "__defineSetter__", "__lookupGetter__", "__lookupSetter__"]

/-- The JavaScript lookup `APP_CONFIG.TAX_BRACKETS[filingStatus]`,
prototype chain included. -/
def taxBracketsLookup (filingStatus : String) : LookupResult :=
  match TAX_BRACKETS filingStatus with
  | some brackets => .table brackets
  | none =>
    if filingStatus ∈ OBJECT_PROTOTYPE_MEMBERS then .inherited else .absent

/-- `TaxCalculator.calculateFederalTax` with the JavaScript lookup made
explicit: `none` models the `TypeError` thrown by iterating a truthy
non-iterable inherited value (`income ≤ 0` short-circuits first, and
`undefined` is falsy so the guard returns 0). -/
def calculateFederalTaxJS (income : ℚ) (filingStatus : String) : Option ℤ :=
  if income ≤ 0 then some 0
  else
    match taxBracketsLookup filingStatus with
    | .absent => some 0
    | .table brackets => some (jsRound (fedTaxLoop income brackets (some 0) 0))
    | .inherited => none

/-! ## `FinancialCalculator.calculate` (calculator.js lines 930-975) -/

structure Inputs where
  preTaxIncome : ℚ
  wealthAccount : Option ℚ
  stateIncomeTax : ℚ
  filingStatus : String

structure CalculationResult where
  federalTax : ℤ
  totalTax : ℚ
  afterTaxIncome : ℚ
  targetSpending : ℤ
  targetSaving : ℤ
  estimatedSaving : ℤ
  estimatedSpending : ℤ
  wealthAccount : ℚ
deriving DecidableEq

def calculate (inputs : Inputs) : CalculationResult :=
  let federalTax := calculateFederalTax inputs.preTaxIncome inputs.filingStatus
  let totalTax : ℚ := (federalTax : ℚ) + inputs.stateIncomeTax
  let afterTaxIncome := inputs.preTaxIncome - totalTax
  let wealthAccount := inputs.wealthAccount.getD 0
  let estimatedSaving := inputs.preTaxIncome * DEFAULT_SAVINGS_RATE
  let estimatedSpending := afterTaxIncome - estimatedSaving
  let targetSpending0 :=
    AFTER_TAX_SPENDING_RATE * afterTaxIncome + WEALTH_SPENDING_RATE * wealthAccount
  let targetSaving0 := max 0 (afterTaxIncome - targetSpending0)
  let targetSaving1 :=
    if targetSaving0 < estimatedSaving then estimatedSaving else targetSaving0
  let targetSpending1 :=
    if targetSaving0 < estimatedSaving then afterTaxIncome - estimatedSaving
    else targetSpending0
  let targetSpending2 :=
    if estimatedSpending < targetSpending1 then estimatedSpending else targetSpending1
  let targetSaving2 :=
    if estimatedSpending < targetSpending1 then afterTaxIncome - estimatedSpending
    else targetSaving1
  { federalTax := federalTax
    totalTax := totalTax
    afterTaxIncome := afterTaxIncome
    targetSpending := jsRound targetSpending2
    targetSaving := jsRound targetSaving2
    estimatedSaving := jsRound estimatedSaving
    estimatedSpending := jsRound estimatedSpending
    wealthAccount := wealthAccount }

/-- Validity conditions on inputs as stated by the spec's external
interface contract: positive income, nonnegative (or blank) wealth,
state tax between 0 and the income, recognized filing status. -/
def ValidInputs (i : Inputs) : Prop :=
  0 < i.preTaxIncome ∧
  0 ≤ i.wealthAccount.getD 0 ∧
  0 ≤ i.stateIncomeTax ∧
  i.stateIncomeTax ≤ i.preTaxIncome ∧
  (TAX_BRACKETS i.filingStatus).isSome = true

instance (i : Inputs) : Decidable (ValidInputs i) := by
  unfold ValidInputs
  infer_instance

/-! ## `FinancialCalculator.calculateProjection` (lines 1014-1027)
and `calculateFifteenYearValue` (lines 1035-1044)

Both add the saving to the running balance and then apply growth; the
projection records the rounded balance each year while the running
balance itself stays unrounded. -/

def projLoop (annualSaving : ℚ) : ℕ → ℚ → List ℤ
  | 0, _ => []
  | years+1, balance =>
    let balance2 := (balance + annualSaving) * (1 + INVESTMENT_RETURN_RATE)
    jsRound balance2 :: projLoop annualSaving years balance2

def calculateProjection (annualSaving : ℚ) (years : ℕ) (startingBalance : ℚ) : List ℤ :=
  projLoop annualSaving years startingBalance

def fifteenYearLoop (annualSaving : ℚ) : ℕ → ℚ → ℚ
  | 0, balance => balance
  | i+1, balance =>
    fifteenYearLoop annualSaving i ((balance + annualSaving) * (1 + INVESTMENT_RETURN_RATE))

def calculateFifteenYearValue (annualSaving startingBalance : ℚ) : ℤ :=
  jsRound (fifteenYearLoop annualSaving PROJECTION_YEARS startingBalance)

/-! ## `FinancialCalculator.calculateAssetEndurance` (lines 984-1005)

The source recursion carries `(annualSpending, assetBase, yearsElapsed)`.
Termination: whenever the recursive branch is taken, `annualSpending >
assetBase * 0.07` and `assetBase > annualSpending`, which forces
`assetBase > 0`, `annualSpending > 0`, and makes the rational measure
`100 * assetBase / (7 * annualSpending)` drop by more than 1 each step,
so its floor is a strictly decreasing natural-number measure. -/

def calculateAssetEndurance (annualSpending : ℚ) (assetBase : ℚ) (yearsElapsed : ℕ) : ℤ :=
  if annualSpending ≤ assetBase * INVESTMENT_RETURN_RATE then -1
  else if assetBase - annualSpending ≤ 0 then (yearsElapsed : ℤ) + 1
  else
    calculateAssetEndurance annualSpending
      ((assetBase - annualSpending) * (1 + INVESTMENT_RETURN_RATE)) (yearsElapsed + 1)
termination_by (Int.floor (100 * assetBase / (7 * annualSpending))).toNat
decreasing_by
  rename_i h1 h2
  push_neg at h1 h2
  rw [INVESTMENT_RETURN_RATE] at h1 ⊢
  have hs : 0 < annualSpending := by nlinarith
  have hd : (0:ℚ) < 7 * annualSpending := by linarith
  have key : 100 * ((assetBase - annualSpending) * (1 + 7/100)) / (7 * annualSpending) + 1 ≤
      100 * assetBase / (7 * annualSpending) := by
    rw [div_add' _ _ _ (ne_of_gt hd), div_le_div_iff₀ hd hd]
    nlinarith
  have hfl : Int.floor (100 * ((assetBase - annualSpending) * (1 + 7/100)) / (7 * annualSpending)) + 1 ≤
      Int.floor (100 * assetBase / (7 * annualSpending)) := by
    have := Int.floor_le_floor key
    rwa [Int.floor_add_one] at this
  have hnn : 0 ≤ Int.floor (100 * ((assetBase - annualSpending) * (1 + 7/100)) / (7 * annualSpending)) := by
    apply Int.floor_nonneg.mpr
    positivity
  omega

/-- Fuel-indexed structural mirror of `calculateAssetEndurance`:
`none` means the fuel ran out before a base case was reached.  Used to
state that the source recursion reaches a base case in finitely many
steps, and to evaluate the function on concrete inputs. -/
def enduranceFuel (annualSpending : ℚ) : ℕ → ℚ → ℕ → Option ℤ
  | 0, _, _ => none
  | fuel+1, assetBase, yearsElapsed =>
    if annualSpending ≤ assetBase * INVESTMENT_RETURN_RATE then some (-1)
    else if assetBase - annualSpending ≤ 0 then some ((yearsElapsed : ℤ) + 1)
    else
      enduranceFuel annualSpending fuel
        ((assetBase - annualSpending) * (1 + INVESTMENT_RETURN_RATE)) (yearsElapsed + 1)

/-! ## `FinancialCalculator.calculateCrossoverPoint` (lines 1053-1095)
and `calculateAllCrossoverPoints` (lines 1102-1124) -/

structure YearRecord where
  year : ℕ
  assets : ℚ
  passiveIncome : ℚ
  earnedIncome : ℚ

structure CrossoverResult where
  years : ℤ
  projectionData : List YearRecord

/-- The `for (let year = 1; year <= 50; year++)` loop, recursing on the
number of remaining iterations while carrying the current year index,
the running assets, the crossover year (`-1` until first crossing) and
the accumulated records. -/
def crossoverLoop (earnedIncome annualSavings : ℚ) :
    ℕ → ℕ → ℚ → ℤ → List YearRecord → ℤ × List YearRecord
  | _, 0, _, crossoverYear, data => (crossoverYear, data)
  | year, r+1, assets, crossoverYear, data =>
    let assets2 := assets * (1 + INVESTMENT_RETURN_RATE) + annualSavings
    let passiveIncome := assets2 * WITHDRAWAL_RATE
    let data2 := data ++ [⟨year, assets2, passiveIncome, earnedIncome⟩]
    let crossoverYear2 :=
      if earnedIncome ≤ passiveIncome ∧ crossoverYear = -1 then (year : ℤ)
      else crossoverYear
    crossoverLoop earnedIncome annualSavings (year+1) r assets2 crossoverYear2 data2

def calculateCrossoverPoint (earnedIncome currentAssets annualSavings : ℚ) : CrossoverResult :=
  let startingPassiveIncome := currentAssets * WITHDRAWAL_RATE
  let crossoverYear0 : ℤ := if earnedIncome ≤ startingPassiveIncome then 0 else -1
  let data0 : List YearRecord := [⟨0, currentAssets, startingPassiveIncome, earnedIncome⟩]
  let result := crossoverLoop earnedIncome annualSavings 1 50 currentAssets crossoverYear0 data0
  ⟨result.1, result.2⟩

structure AllCrossoverPoints where
  worker : CrossoverResult
  investor : CrossoverResult

def calculateAllCrossoverPoints (calculations : CalculationResult) : AllCrossoverPoints :=
  ⟨calculateCrossoverPoint calculations.afterTaxIncome calculations.wealthAccount
      (calculations.estimatedSaving : ℚ),
   calculateCrossoverPoint calculations.afterTaxIncome calculations.wealthAccount
      (calculations.targetSaving : ℚ)⟩

/-! ## Specification-side models

These definitions follow the spec's words (the recurrences and the
marginal-bracket sum as §4 states them) and are compared with the
embedded source functions in the refinement theorems below. -/

/-- The spec's marginal-bracket integral: each bracket taxes
`max 0 (min income ceiling − lower)` at its marginal rate, where `lower`
is the previous bracket's threshold; the unbounded final bracket absorbs
all remaining income. -/
def specMarginalSum (income : ℚ) : List Bracket → ℚ → ℚ
  | [], _ => 0
  | b :: rest, lower =>
    match b.threshold with
    | some t => b.rate * max 0 (min income t - lower) + specMarginalSum income rest t
    | none => b.rate * max 0 (income - lower) + specMarginalSum income rest income

/-- Bracket thresholds ascend from the given lower bound, and only the
final bracket may be unbounded. -/
def ThresholdsMono : ℚ → List Bracket → Prop
  | _, [] => True
  | lower, b :: rest =>
    match b.threshold with
    | some t => lower ≤ t ∧ ThresholdsMono t rest
    | none => rest = []

/-- The spec's endurance recurrence: `A 0 = assetBase`,
`A (k+1) = (A k − annualSpending) × 1.07`. -/
def enduranceAssets (annualSpending assetBase : ℚ) : ℕ → ℚ
  | 0 => assetBase
  | k+1 => (enduranceAssets annualSpending assetBase k - annualSpending) * (1 + INVESTMENT_RETURN_RATE)

/-- The spec's projection balance recurrence (contribution added before
growth): `B 0 = startingBalance`, `B (k+1) = (B k + annualSaving) × 1.07`. -/
def specProjBalance (annualSaving startingBalance : ℚ) : ℕ → ℚ
  | 0 => startingBalance
  | k+1 => (specProjBalance annualSaving startingBalance k + annualSaving) * (1 + INVESTMENT_RETURN_RATE)

/-- The spec's crossover asset recurrence (growth applied before
contribution): `A 0 = currentAssets`, `A (y+1) = A y × 1.07 + annualSavings`. -/
def specCrossAssets (currentAssets annualSavings : ℚ) : ℕ → ℚ
  | 0 => currentAssets
  | y+1 => specCrossAssets currentAssets annualSavings y * (1 + INVESTMENT_RETURN_RATE) + annualSavings

/-- Index (0-based, counting from the state `a` at the start of the
window) of the first of the next `r` crossover steps whose post-update
passive income meets the earned income. -/
def firstCross (earnedIncome annualSavings : ℚ) : ℕ → ℚ → Option ℕ
  | 0, _ => none
  | r+1, a =>
    let a2 := a * (1 + INVESTMENT_RETURN_RATE) + annualSavings
    if earnedIncome ≤ a2 * WITHDRAWAL_RATE then some 0
    else (firstCross earnedIncome annualSavings r a2).map (fun k => k + 1)

/-- Order of crossover years with the `-1` "never" sentinel placed after
every finite year. -/
def crossOrd (y : ℤ) : WithTop ℤ :=
  if y = -1 then ⊤ else (y : WithTop ℤ)

/-! ## Helper lemmas -/

lemma jsRound_mono {q r : ℚ} (h : q ≤ r) : jsRound q ≤ jsRound r :=
  Int.floor_le_floor (by linarith)

/-! ## C1: monotonic-improvement invariant of `calculate` -/

/-- C1.  For every valid input (positive income, nonnegative-or-blank
wealth, state tax between 0 and income, recognized filing status), the
rounded output fields of `FinancialCalculator.calculate` satisfy
`targetSaving ≥ estimatedSaving` and `targetSpending ≤ estimatedSpending`:
the investor path never does worse than the worker path. -/
theorem calculate_monotonic_improvement (i : Inputs) (h : ValidInputs i) :
    (calculate i).estimatedSaving ≤ (calculate i).targetSaving ∧
    (calculate i).targetSpending ≤ (calculate i).estimatedSpending := by
  simp only [calculate]
  refine ⟨jsRound_mono ?_, jsRound_mono ?_⟩ <;>
    split_ifs <;>
    linarith [le_max_left (0:ℚ)
        (i.preTaxIncome - ((calculateFederalTax i.preTaxIncome i.filingStatus : ℚ) + i.stateIncomeTax) -
          (AFTER_TAX_SPENDING_RATE * (i.preTaxIncome - ((calculateFederalTax i.preTaxIncome i.filingStatus : ℚ) + i.stateIncomeTax)) +
            WEALTH_SPENDING_RATE * i.wealthAccount.getD 0)),
      le_max_right (0:ℚ)
        (i.preTaxIncome - ((calculateFederalTax i.preTaxIncome i.filingStatus : ℚ) + i.stateIncomeTax) -
          (AFTER_TAX_SPENDING_RATE * (i.preTaxIncome - ((calculateFederalTax i.preTaxIncome i.filingStatus : ℚ) + i.stateIncomeTax)) +
            WEALTH_SPENDING_RATE * i.wealthAccount.getD 0))]

/-- C1 witness: the invariant instantiated on the concrete valid input
(income 100000, wealth 50000, state tax 3000, single). -/
theorem calculate_monotonic_improvement_witness :
    ValidInputs ⟨100000, some 50000, 3000, "single"⟩ ∧
    ((calculate ⟨100000, some 50000, 3000, "single"⟩).estimatedSaving ≤
        (calculate ⟨100000, some 50000, 3000, "single"⟩).targetSaving ∧
      (calculate ⟨100000, some 50000, 3000, "single"⟩).targetSpending ≤
        (calculate ⟨100000, some 50000, 3000, "single"⟩).estimatedSpending) :=
  have hv : ValidInputs ⟨100000, some 50000, 3000, "single"⟩ := by
    refine ⟨by norm_num, by norm_num [Option.getD], by norm_num, by norm_num, ?_⟩
    rfl
  ⟨hv, calculate_monotonic_improvement _ hv⟩

/-! ## C8: the unrecognized-status default and the prototype-chain throw -/

/-- Whenever the lookup-faithful function returns a value, it is the
value of the total embedding: the refinement only adds the error path. -/
lemma calculateFederalTaxJS_sound (income : ℚ) (fs : String) (r : ℤ)
    (h : calculateFederalTaxJS income fs = some r) :
    calculateFederalTax income fs = r := by
  unfold calculateFederalTaxJS taxBracketsLookup at h
  unfold calculateFederalTax
  by_cases hinc : income ≤ 0
  · rw [if_pos hinc] at h
    injection h with h
    subst h
    cases TAX_BRACKETS fs with
    | none => rfl
    | some brackets => simp [hinc]
  · rw [if_neg hinc] at h
    cases htb : TAX_BRACKETS fs with
    | none =>
      rw [htb] at h
      dsimp only at h
      by_cases hmem : fs ∈ OBJECT_PROTOTYPE_MEMBERS
      · rw [if_pos hmem] at h
        exact Option.noConfusion h
      · rw [if_neg hmem] at h
        injection h with h
    | some brackets =>
      rw [htb] at h
      dsimp only at h
      injection h with h
      dsimp only
      rw [if_neg hinc]
      exact h

/-- C8 (code bug).  At income 100000 and filing status "constructor" the
JavaScript lookup resolves to the inherited, truthy, non-iterable
`Object.prototype.constructor`, the guard does not return 0, and the
`for...of` iteration throws a `TypeError` (`none` in the embedding) — so
the function does not return 0 there, against the claim's "returns 0,
without raising any error, for every unrecognized key".  Nonpositive
income and a genuinely absent key such as "unknown" do return 0 as the
claim states. -/
theorem calculateFederalTaxJS_constructor_throws :
    calculateFederalTaxJS 100000 "constructor" = none ∧
    calculateFederalTaxJS 0 "constructor" = some 0 ∧
    calculateFederalTaxJS 100000 "unknown" = some 0 := by
  have hc : TAX_BRACKETS "constructor" = none := rfl
  have hu : TAX_BRACKETS "unknown" = none := rfl
  have hmemc : "constructor" ∈ OBJECT_PROTOTYPE_MEMBERS := by decide
  have hmemu : "unknown" ∉ OBJECT_PROTOTYPE_MEMBERS := by decide
  have hpos : ¬ (100000:ℚ) ≤ 0 := by norm_num
  refine ⟨?_, ?_, ?_⟩
  · unfold calculateFederalTaxJS taxBracketsLookup
    rw [if_neg hpos, hc]
    dsimp only
    rw [if_pos hmemc]
  · unfold calculateFederalTaxJS
    rw [if_pos le_rfl]
  · unfold calculateFederalTaxJS taxBracketsLookup
    rw [if_neg hpos, hu]
    dsimp only
    rw [if_neg hmemu]

/-! ## C9: the concrete single-filer value at income 100000 -/

/-- C9 counterexample: on the configured bracket table the code does not
return 17053 at `(100000, "single")`. -/
theorem calculateFederalTax_100000_single_ne_17053 :
    calculateFederalTax 100000 "single" ≠ 17053 := by
  norm_num [calculateFederalTax, TAX_BRACKETS, fedTaxLoop, singleBrackets, jsRound, min_def]

/-- C9 amended.  With the configured bracket table (10% to 11925, 12% to
48475, 22% above, at income 100000), `calculateFederalTax 100000 "single"`
returns 16914, not 17053. -/
theorem calculateFederalTax_100000_single :
    calculateFederalTax 100000 "single" = 16914 := by
  norm_num [calculateFederalTax, TAX_BRACKETS, fedTaxLoop, singleBrackets, jsRound, min_def]

/-! ## C2: the bracket walk equals the spec's marginal-bracket sum -/

lemma specMarginalSum_eq_zero (income : ℚ) :
    ∀ (bs : List Bracket) (lower : ℚ), income ≤ lower → ThresholdsMono lower bs →
      specMarginalSum income bs lower = 0 := by
  intro bs
  induction bs with
  | nil => intro lower _ _; rfl
  | cons b rest ih =>
    intro lower hle hmono
    cases hth : b.threshold with
    | some t =>
      rw [ThresholdsMono, hth] at hmono
      dsimp only at hmono
      rw [specMarginalSum, hth]
      dsimp only
      have h1 : min income t - lower ≤ 0 := by
        have := min_le_left income t
        linarith
      rw [max_eq_left h1, mul_zero, zero_add]
      exact ih t (le_trans hle hmono.1) hmono.2
    | none =>
      rw [ThresholdsMono, hth] at hmono
      dsimp only at hmono
      rw [specMarginalSum, hth]
      dsimp only
      rw [hmono]
      have h1 : income - lower ≤ 0 := by linarith
      rw [max_eq_left h1, mul_zero, zero_add]
      rfl

lemma fedTaxLoop_eq_specMarginalSum (income : ℚ) :
    ∀ (bs : List Bracket) (prev acc : ℚ), ThresholdsMono prev bs →
      fedTaxLoop income bs (some prev) acc = acc + specMarginalSum income bs prev := by
  intro bs
  induction bs with
  | nil => intro prev acc _; rw [fedTaxLoop, specMarginalSum, add_zero]
  | cons b rest ih =>
    intro prev acc hmono
    rw [fedTaxLoop]
    by_cases hle : income ≤ prev
    · rw [if_pos hle, specMarginalSum_eq_zero income (b :: rest) prev hle hmono, add_zero]
    · rw [if_neg hle]
      push_neg at hle
      cases hth : b.threshold with
      | some t =>
        rw [ThresholdsMono, hth] at hmono
        dsimp only at hmono
        rw [specMarginalSum, hth]
        dsimp only
        rw [ih t (acc + (min income t - prev) * b.rate) hmono.2]
        have hnn : 0 ≤ min income t - prev := by
          have := le_min hle.le hmono.1
          linarith
        rw [max_eq_right hnn]
        ring
      | none =>
        rw [ThresholdsMono, hth] at hmono
        dsimp only at hmono
        rw [specMarginalSum, hth]
        dsimp only
        simp only [hth, hmono]
        rw [fedTaxLoop]
        have hnn : 0 ≤ income - prev := by linarith
        rw [max_eq_right hnn, specMarginalSum]
        ring

lemma TAX_BRACKETS_mono (fs : String) (bs : List Bracket) (h : TAX_BRACKETS fs = some bs) :
    ThresholdsMono 0 bs := by
  unfold TAX_BRACKETS at h
  split at h <;> first
    | exact Option.noConfusion h
    | (injection h with h
       subst h
       norm_num [ThresholdsMono, singleBrackets, marriedJointlyBrackets,
         marriedSeparatelyBrackets, headOfHouseholdBrackets])

/-- C2.  For every positive income and every recognized filing status,
`calculateFederalTax` equals the spec's marginal-bracket sum over that
status's bracket table — each bracket taxes the portion of income between
the previous threshold and `min(income, threshold)` at its marginal rate,
the unbounded last bracket absorbing the rest — rounded with standard
round semantics. -/
theorem calculateFederalTax_eq_specMarginalSum (income : ℚ) (fs : String) (bs : List Bracket)
    (h0 : 0 < income) (hbs : TAX_BRACKETS fs = some bs) :
    calculateFederalTax income fs = jsRound (specMarginalSum income bs 0) := by
  unfold calculateFederalTax
  rw [hbs]
  dsimp only
  rw [if_neg (not_le.mpr h0),
    fedTaxLoop_eq_specMarginalSum income bs 0 0 (TAX_BRACKETS_mono fs bs hbs), zero_add]

/-- C2 witness: the bracket walk agrees with the spec's marginal sum on
the concrete input (100000, single). -/
theorem calculateFederalTax_eq_specMarginalSum_witness :
    0 < (100000 : ℚ) ∧ TAX_BRACKETS "single" = some singleBrackets ∧
    calculateFederalTax 100000 "single" = jsRound (specMarginalSum 100000 singleBrackets 0) :=
  ⟨by norm_num, rfl, calculateFederalTax_eq_specMarginalSum 100000 "single" singleBrackets
    (by norm_num) rfl⟩

/-! ## C6 and C7: projection engine and the two compounding conventions -/

lemma specProjBalance_shift (s b : ℚ) :
    ∀ k, specProjBalance s ((b + s) * (1 + INVESTMENT_RETURN_RATE)) k = specProjBalance s b (k+1) := by
  intro k
  induction k with
  | zero => rfl
  | succ k ih =>
    rw [specProjBalance, ih]
    rfl

lemma fifteenYearLoop_eq_specProjBalance (s : ℚ) :
    ∀ (k : ℕ) (b : ℚ), fifteenYearLoop s k b = specProjBalance s b k := by
  intro k
  induction k with
  | zero => intro b; rfl
  | succ k ih => intro b; rw [fifteenYearLoop, ih, specProjBalance_shift]

lemma projLoop_eq_map (s : ℚ) :
    ∀ (n : ℕ) (b : ℚ),
      projLoop s n b = (List.range n).map (fun k => jsRound (specProjBalance s b (k+1))) := by
  intro n
  induction n with
  | zero => intro b; rfl
  | succ n ih =>
    intro b
    simp only [projLoop]
    rw [ih ((b + s) * (1 + INVESTMENT_RETURN_RATE)), List.range_succ_eq_map]
    simp only [List.map_cons, List.map_map]
    congr 1
    refine List.map_congr_left ?_
    intro k _
    simp only [Function.comp]
    rw [specProjBalance_shift]

/-- C6.  The last element of `calculateProjection(annualSaving, n,
startingBalance)` at the configured horizon `n = PROJECTION_YEARS = 15`
equals `calculateFifteenYearValue(annualSaving, startingBalance)`: the
single-value routine is the last element of the full series, even though
the series rounds each recorded value while the running balance stays
unrounded. -/
theorem calculateProjection_last_eq_calculateFifteenYearValue (s b : ℚ) :
    (calculateProjection s PROJECTION_YEARS b).getLast? =
      some (calculateFifteenYearValue s b) := by
  rw [calculateProjection, projLoop_eq_map, calculateFifteenYearValue,
    fifteenYearLoop_eq_specProjBalance, PROJECTION_YEARS]
  rw [List.range_succ 14, List.map_append]
  simp only [List.map_cons, List.map_nil]
  rw [List.getLast?_concat]

lemma specCrossAssets_shift (A S : ℚ) :
    ∀ k, specCrossAssets (A * (1 + INVESTMENT_RETURN_RATE) + S) S k = specCrossAssets A S (k+1) := by
  intro k
  induction k with
  | zero => rfl
  | succ k ih =>
    rw [specCrossAssets, ih]
    rfl

lemma crossoverLoop_assets (E S : ℚ) :
    ∀ (r year : ℕ) (a : ℚ) (cy : ℤ) (data : List YearRecord),
      (crossoverLoop E S year r a cy data).2.map YearRecord.assets =
        data.map YearRecord.assets ++ (List.range r).map (fun k => specCrossAssets a S (k+1)) := by
  intro r
  induction r with
  | zero => intro year a cy data; simp [crossoverLoop]
  | succ r ih =>
    intro year a cy data
    simp only [crossoverLoop]
    rw [ih, List.range_succ_eq_map]
    simp only [List.map_append, List.map_cons, List.map_nil, List.map_map,
      List.append_assoc, List.singleton_append]
    congr 2
    refine List.map_congr_left ?_
    intro k _
    simp only [Function.comp]
    rw [specCrossAssets_shift]

/-- C7.  The two engines use opposite per-year compounding conventions:
every entry of `calculateProjection` (and the value of
`calculateFifteenYearValue`) is the rounding of the balance recurrence
`B (k+1) = (B k + annualSaving) × 1.07` (contribution before growth),
while every recorded assets value of `calculateCrossoverPoint` follows
`A (y+1) = A y × 1.07 + annualSavings` (growth before contribution). -/
theorem compounding_conventions (s b E A S : ℚ) (n : ℕ) :
    calculateProjection s n b =
      (List.range n).map (fun k => jsRound (specProjBalance s b (k+1))) ∧
    calculateFifteenYearValue s b = jsRound (specProjBalance s b PROJECTION_YEARS) ∧
    (calculateCrossoverPoint E A S).projectionData.map YearRecord.assets =
      (List.range 51).map (specCrossAssets A S) := by
  refine ⟨projLoop_eq_map s n b,
    by rw [calculateFifteenYearValue, fifteenYearLoop_eq_specProjBalance], ?_⟩
  simp only [calculateCrossoverPoint]
  rw [crossoverLoop_assets, List.range_succ_eq_map 50]
  simp only [List.map_cons, List.map_nil, List.map_map, List.singleton_append]
  congr 1

/-! ## C3 and C5: asset endurance -/

lemma enduranceAssets_shift (sp base : ℚ) :
    ∀ k, enduranceAssets sp ((base - sp) * (1 + INVESTMENT_RETURN_RATE)) k =
      enduranceAssets sp base (k+1) := by
  intro k
  induction k with
  | zero => rfl
  | succ k ih =>
    rw [enduranceAssets, ih]
    rfl

/-- In the recursive branch the remaining-assets argument strictly
decreases, and the sustainability threshold stays violated. -/
lemma endurance_step_lt (sp base : ℚ)
    (h1 : ¬ sp ≤ base * INVESTMENT_RETURN_RATE) (h2 : ¬ base - sp ≤ 0) :
    (base - sp) * (1 + INVESTMENT_RETURN_RATE) < base ∧
    ¬ sp ≤ (base - sp) * (1 + INVESTMENT_RETURN_RATE) * INVESTMENT_RETURN_RATE := by
  rw [INVESTMENT_RETURN_RATE] at h1 ⊢
  push_neg at h1 h2 ⊢
  constructor
  · nlinarith
  · nlinarith

/-- Core characterization of the endurance recursion away from the
sustainable region: it returns `yearsElapsed + k + 1` where `k` is the
first step of the spec recurrence at which the remainder before growth
is nonpositive. -/
lemma calculateAssetEndurance_spec (sp : ℚ) :
    ∀ (base : ℚ) (y : ℕ), ¬ sp ≤ base * INVESTMENT_RETURN_RATE →
      ∃ k : ℕ, calculateAssetEndurance sp base y = (y : ℤ) + k + 1 ∧
        enduranceAssets sp base k - sp ≤ 0 ∧
        ∀ j < k, ¬ enduranceAssets sp base j - sp ≤ 0 := by
  intro base y
  induction base, y using calculateAssetEndurance.induct sp with
  | case1 base y h1 => intro h; exact absurd h1 h
  | case2 base y h1 h2 =>
    intro _
    refine ⟨0, ?_, h2, by omega⟩
    unfold calculateAssetEndurance
    rw [if_neg h1, if_pos h2]
    push_cast
    ring
  | case3 base y h1 h2 ih =>
    intro _
    obtain ⟨k, hval, hdep, hmin⟩ := ih (endurance_step_lt sp base h1 h2).2
    refine ⟨k + 1, ?_, ?_, ?_⟩
    · unfold calculateAssetEndurance
      rw [if_neg h1, if_neg h2, hval]
      push_cast
      ring
    · rw [← enduranceAssets_shift]
      exact hdep
    · intro j hj
      cases j with
      | zero =>
        rw [enduranceAssets]
        linarith [not_le.mp h2]
      | succ j =>
        rw [← enduranceAssets_shift]
        exact hmin j (by omega)

/-- C3.  For `assetBase ≥ 0`, `calculateAssetEndurance(annualSpending,
assetBase, 0)` returns the indefinite sentinel `-1` exactly when
`annualSpending ≤ assetBase × 0.07`; otherwise it returns `k + 1 ≥ 1`
where `k` is the first index at which the spec recurrence
`A 0 = assetBase, A (i+1) = (A i − annualSpending) × 1.07` has
`A k − annualSpending ≤ 0`. -/
theorem calculateAssetEndurance_characterization (sp base : ℚ) (hbase : 0 ≤ base) :
    (calculateAssetEndurance sp base 0 = -1 ↔ sp ≤ base * (7/100)) ∧
    (¬ sp ≤ base * (7/100) →
      ∃ k : ℕ, calculateAssetEndurance sp base 0 = (k : ℤ) + 1 ∧
        enduranceAssets sp base k - sp ≤ 0 ∧
        ∀ j < k, ¬ enduranceAssets sp base j - sp ≤ 0) := by
  have hrate : base * (7/100) = base * INVESTMENT_RETURN_RATE := by rw [INVESTMENT_RETURN_RATE]
  rw [hrate]
  constructor
  · constructor
    · intro hres
      by_contra hgt
      obtain ⟨k, hval, _, _⟩ := calculateAssetEndurance_spec sp base 0 hgt
      rw [hval] at hres
      omega
    · intro hle
      unfold calculateAssetEndurance
      rw [if_pos hle]
  · intro hgt
    obtain ⟨k, hval, hdep, hmin⟩ := calculateAssetEndurance_spec sp base 0 hgt
    exact ⟨k, by rw [hval]; ring, hdep, hmin⟩

/-- C3 witness: the characterization instantiated at the spec's concrete
example (annual spending 100000, asset base 500000). -/
theorem calculateAssetEndurance_characterization_witness :
    (0:ℚ) ≤ 500000 ∧
    ((calculateAssetEndurance 100000 500000 0 = -1 ↔ (100000:ℚ) ≤ 500000 * (7/100)) ∧
      (¬ (100000:ℚ) ≤ 500000 * (7/100) →
        ∃ k : ℕ, calculateAssetEndurance 100000 500000 0 = (k : ℤ) + 1 ∧
          enduranceAssets 100000 500000 k - 100000 ≤ 0 ∧
          ∀ j < k, ¬ enduranceAssets 100000 500000 j - 100000 ≤ 0)) :=
  ⟨by norm_num, calculateAssetEndurance_characterization 100000 500000 (by norm_num)⟩

/-- C5.  For `assetBase ≥ 0` the endurance recursion terminates: in the
recursive branch the asset base strictly decreases, and for every
`yearsElapsed` some finite fuel suffices for the fuel-indexed mirror of
the recursion to reach a base case, returning the value of the (total)
embedded function. -/
theorem calculateAssetEndurance_terminates (sp base : ℚ) (hbase : 0 ≤ base) :
    (¬ sp ≤ base * INVESTMENT_RETURN_RATE → ¬ base - sp ≤ 0 →
      (base - sp) * (1 + INVESTMENT_RETURN_RATE) < base) ∧
    (∀ y : ℕ, ∃ fuel : ℕ,
      enduranceFuel sp fuel base y = some (calculateAssetEndurance sp base y)) := by
  constructor
  · intro h1 h2
    exact (endurance_step_lt sp base h1 h2).1
  · intro y
    clear hbase
    induction base, y using calculateAssetEndurance.induct sp with
    | case1 base y h1 =>
      refine ⟨1, ?_⟩
      unfold enduranceFuel calculateAssetEndurance
      rw [if_pos h1, if_pos h1]
    | case2 base y h1 h2 =>
      refine ⟨1, ?_⟩
      unfold enduranceFuel calculateAssetEndurance
      rw [if_neg h1, if_neg h1, if_pos h2, if_pos h2]
    | case3 base y h1 h2 ih =>
      obtain ⟨fuel, hfuel⟩ := ih
      refine ⟨fuel + 1, ?_⟩
      unfold enduranceFuel calculateAssetEndurance
      rw [if_neg h1, if_neg h1, if_neg h2, if_neg h2]
      exact hfuel

/-- C5 witness: termination data instantiated at spending 100000 against
an asset base of 500000. -/
theorem calculateAssetEndurance_terminates_witness :
    (0:ℚ) ≤ 500000 ∧
    ((¬ (100000:ℚ) ≤ 500000 * INVESTMENT_RETURN_RATE → ¬ (500000:ℚ) - 100000 ≤ 0 →
        ((500000:ℚ) - 100000) * (1 + INVESTMENT_RETURN_RATE) < 500000) ∧
      (∀ y : ℕ, ∃ fuel : ℕ,
        enduranceFuel 100000 fuel 500000 y = some (calculateAssetEndurance 100000 500000 y))) :=
  ⟨by norm_num, calculateAssetEndurance_terminates 100000 500000 (by norm_num)⟩

/-! ## C4 and C10: the crossover year -/

lemma crossoverLoop_years (E S : ℚ) :
    ∀ (r year : ℕ) (a : ℚ) (cy : ℤ) (data : List YearRecord),
      (crossoverLoop E S year r a cy data).1 =
        if cy = -1 then
          (match firstCross E S r a with
            | some k => ((year + k : ℕ) : ℤ)
            | none => -1)
        else cy := by
  intro r
  induction r with
  | zero =>
    intro year a cy data
    by_cases hcy : cy = -1 <;> simp [crossoverLoop, firstCross, hcy]
  | succ r ih =>
    intro year a cy data
    simp only [crossoverLoop]
    rw [ih, firstCross]
    by_cases hcy : cy = -1
    · subst hcy
      by_cases hE : E ≤ (a * (1 + INVESTMENT_RETURN_RATE) + S) * WITHDRAWAL_RATE
      · have hc : E ≤ (a * (1 + INVESTMENT_RETURN_RATE) + S) * WITHDRAWAL_RATE ∧ (-1:ℤ) = -1 :=
          ⟨hE, rfl⟩
        rw [if_pos hc, if_neg (show ¬ ((year : ℤ) = -1) by omega),
          if_pos (show (-1:ℤ) = -1 from rfl), if_pos hE]
        simp
      · have hc : ¬ (E ≤ (a * (1 + INVESTMENT_RETURN_RATE) + S) * WITHDRAWAL_RATE ∧ (-1:ℤ) = -1) :=
          fun hx => hE hx.1
        rw [if_neg hc, if_pos (show (-1:ℤ) = -1 from rfl),
          if_pos (show (-1:ℤ) = -1 from rfl), if_neg hE]
        cases h : firstCross E S r (a * (1 + INVESTMENT_RETURN_RATE) + S) with
        | none => rfl
        | some k =>
          rw [Option.map_some']
          dsimp only
          push_cast
          ring
    · have hc : ¬ (E ≤ (a * (1 + INVESTMENT_RETURN_RATE) + S) * WITHDRAWAL_RATE ∧ cy = -1) :=
        fun hx => hcy hx.2
      rw [if_neg hc, if_neg hcy, if_neg hcy]

lemma calculateCrossoverPoint_years (E A S : ℚ) :
    (calculateCrossoverPoint E A S).years =
      if E ≤ A * WITHDRAWAL_RATE then 0
      else
        (match firstCross E S 50 A with
          | some k => (k : ℤ) + 1
          | none => -1) := by
  simp only [calculateCrossoverPoint]
  rw [crossoverLoop_years]
  by_cases hE : E ≤ A * WITHDRAWAL_RATE
  · rw [if_pos hE, if_pos hE, if_neg (show ¬ ((0 : ℤ) = -1) by omega)]
  · rw [if_neg hE, if_neg hE, if_pos rfl]
    cases firstCross E S 50 A with
    | none => rfl
    | some k =>
      dsimp only
      push_cast
      ring

lemma firstCross_none_iff (E S : ℚ) :
    ∀ (r : ℕ) (a : ℚ), firstCross E S r a = none ↔
      ∀ k, k < r → ¬ E ≤ specCrossAssets a S (k+1) * WITHDRAWAL_RATE := by
  intro r
  induction r with
  | zero => intro a; simp [firstCross]
  | succ r ih =>
    intro a
    rw [firstCross]
    by_cases hE : E ≤ (a * (1 + INVESTMENT_RETURN_RATE) + S) * WITHDRAWAL_RATE
    · simp only [if_pos hE]
      refine iff_of_false (by simp) ?_
      push_neg
      exact ⟨0, by omega, hE⟩
    · simp only [if_neg hE]
      rw [Option.map_eq_none', ih]
      constructor
      · intro h k hk
        cases k with
        | zero => exact hE
        | succ k =>
          rw [← specCrossAssets_shift]
          exact h k (by omega)
      · intro h k hk
        rw [specCrossAssets_shift]
        exact h (k+1) (by omega)

lemma firstCross_some (E S : ℚ) :
    ∀ (r : ℕ) (a : ℚ) (k : ℕ), firstCross E S r a = some k →
      k < r ∧ E ≤ specCrossAssets a S (k+1) * WITHDRAWAL_RATE ∧
        ∀ j, j < k → ¬ E ≤ specCrossAssets a S (j+1) * WITHDRAWAL_RATE := by
  intro r
  induction r with
  | zero => intro a k h; exact absurd h (by simp [firstCross])
  | succ r ih =>
    intro a k h
    rw [firstCross] at h
    by_cases hE : E ≤ (a * (1 + INVESTMENT_RETURN_RATE) + S) * WITHDRAWAL_RATE
    · simp only [if_pos hE, Option.some.injEq] at h
      subst h
      exact ⟨by omega, hE, by omega⟩
    · simp only [if_neg hE, Option.map_eq_some'] at h
      obtain ⟨k2, hk2, hkk⟩ := h
      obtain ⟨hlt, hcross, hmin⟩ := ih _ k2 hk2
      subst hkk
      refine ⟨by omega, ?_, ?_⟩
      · rw [← specCrossAssets_shift]
        exact hcross
      · intro j hj
        cases j with
        | zero => exact hE
        | succ j =>
          rw [← specCrossAssets_shift]
          exact hmin j (by omega)

/-- C4.  `calculateCrossoverPoint` returns crossover year 0 when
`currentAssets × 0.05 ≥ earnedIncome`; otherwise the crossover year is
the smallest year `y ∈ 1..50` at which the passive income of the spec
asset recurrence meets the earned income (first crossing wins), and the
`-1` "never" sentinel when no year in 1..50 crosses. -/
theorem calculateCrossoverPoint_first_crossing (E A S : ℚ) :
    (E ≤ A * WITHDRAWAL_RATE → (calculateCrossoverPoint E A S).years = 0) ∧
    (¬ E ≤ A * WITHDRAWAL_RATE →
      ((∃ y, 1 ≤ y ∧ y ≤ 50 ∧ E ≤ specCrossAssets A S y * WITHDRAWAL_RATE) →
        ∃ y : ℕ, (calculateCrossoverPoint E A S).years = (y : ℤ) ∧ 1 ≤ y ∧ y ≤ 50 ∧
          E ≤ specCrossAssets A S y * WITHDRAWAL_RATE ∧
          ∀ j, 1 ≤ j → j < y → ¬ E ≤ specCrossAssets A S j * WITHDRAWAL_RATE) ∧
      ((∀ y, 1 ≤ y → y ≤ 50 → ¬ E ≤ specCrossAssets A S y * WITHDRAWAL_RATE) →
        (calculateCrossoverPoint E A S).years = -1)) := by
  constructor
  · intro hE
    rw [calculateCrossoverPoint_years, if_pos hE]
  · intro hE
    constructor
    · rintro ⟨y, hy1, hy50, hcross⟩
      cases hfc : firstCross E S 50 A with
      | none =>
        exfalso
        have := (firstCross_none_iff E S 50 A).mp hfc (y-1) (by omega)
        rw [show y - 1 + 1 = y from by omega] at this
        exact this hcross
      | some k =>
        obtain ⟨hk50, hkcross, hkmin⟩ := firstCross_some E S 50 A k hfc
        refine ⟨k+1, ?_, by omega, by omega, hkcross, ?_⟩
        · rw [calculateCrossoverPoint_years, if_neg hE, hfc]
          push_cast
          ring
        · intro j hj1 hjk
          have := hkmin (j-1) (by omega)
          rwa [show j - 1 + 1 = j from by omega] at this
    · intro hnone
      rw [calculateCrossoverPoint_years, if_neg hE]
      rw [(firstCross_none_iff E S 50 A).mpr (fun k hk => hnone (k+1) (by omega) (by omega))]

/-- C4 witness: an asset base of 10000 at the 5% withdrawal rate already
covers an earned income of 100, so the crossover year is 0. -/
theorem calculateCrossoverPoint_first_crossing_witness :
    (100:ℚ) ≤ 10000 * WITHDRAWAL_RATE ∧ (calculateCrossoverPoint 100 10000 0).years = 0 :=
  have hE : (100:ℚ) ≤ 10000 * WITHDRAWAL_RATE := by
    rw [WITHDRAWAL_RATE]
    norm_num
  ⟨hE, (calculateCrossoverPoint_first_crossing 100 10000 0).1 hE⟩

/-- C10.  The crossover year (with the `-1` "never" sentinel ordered
after every finite year) is non-increasing in the annual savings, with
earned income and current assets fixed; consequently
`calculateAllCrossoverPoints` gives the investor path (savings
`targetSaving ≥ estimatedSaving`) a crossover year no later than the
worker path. -/
theorem crossover_year_monotone :
    (∀ (E A S1 S2 : ℚ), S1 ≤ S2 →
      crossOrd (calculateCrossoverPoint E A S2).years ≤
        crossOrd (calculateCrossoverPoint E A S1).years) ∧
    (∀ c : CalculationResult, 0 ≤ c.estimatedSaving → c.estimatedSaving ≤ c.targetSaving →
      crossOrd (calculateAllCrossoverPoints c).investor.years ≤
        crossOrd (calculateAllCrossoverPoints c).worker.years) := by
  have hmono : ∀ (E A S1 S2 : ℚ), S1 ≤ S2 →
      crossOrd (calculateCrossoverPoint E A S2).years ≤
        crossOrd (calculateCrossoverPoint E A S1).years := by
    intro E A S1 S2 hS
    have hassets : ∀ y, specCrossAssets A S1 y ≤ specCrossAssets A S2 y := by
      intro y
      induction y with
      | zero => exact le_refl A
      | succ y ih =>
        rw [specCrossAssets, specCrossAssets]
        have hR : (0:ℚ) ≤ 1 + INVESTMENT_RETURN_RATE := by
          rw [INVESTMENT_RETURN_RATE]
          norm_num
        nlinarith
    rw [calculateCrossoverPoint_years, calculateCrossoverPoint_years]
    by_cases hE : E ≤ A * WITHDRAWAL_RATE
    · rw [if_pos hE, if_pos hE]
    · rw [if_neg hE, if_neg hE]
      cases hfc1 : firstCross E S1 50 A with
      | none =>
        dsimp only
        have h1 : crossOrd (-1) = ⊤ := by
          rw [crossOrd, if_pos rfl]
        rw [h1]
        exact le_top
      | some k1 =>
        obtain ⟨hk1lt, hk1cross, _⟩ := firstCross_some E S1 50 A k1 hfc1
        have hW : (0:ℚ) ≤ WITHDRAWAL_RATE := by
          rw [WITHDRAWAL_RATE]
          norm_num
        have hcross2 : E ≤ specCrossAssets A S2 (k1+1) * WITHDRAWAL_RATE :=
          le_trans hk1cross (mul_le_mul_of_nonneg_right (hassets (k1+1)) hW)
        cases hfc2 : firstCross E S2 50 A with
        | none =>
          exact absurd hcross2 ((firstCross_none_iff E S2 50 A).mp hfc2 k1 hk1lt)
        | some k2 =>
          obtain ⟨_, _, hk2min⟩ := firstCross_some E S2 50 A k2 hfc2
          have hk2k1 : k2 ≤ k1 := by
            by_contra hgt
            push_neg at hgt
            exact hk2min k1 hgt hcross2
          dsimp only
          rw [crossOrd, crossOrd, if_neg (show ¬ ((k2:ℤ) + 1 = -1) by omega),
            if_neg (show ¬ ((k1:ℤ) + 1 = -1) by omega)]
          exact_mod_cast (show (k2:ℤ) + 1 ≤ (k1:ℤ) + 1 by omega)
  refine ⟨hmono, ?_⟩
  intro c h0 hle
  simp only [calculateAllCrossoverPoints]
  exact hmono c.afterTaxIncome c.wealthAccount (c.estimatedSaving : ℚ) (c.targetSaving : ℚ)
    (by exact_mod_cast hle)

/-- C10 witness: monotonicity instantiated at earned income 100, assets
0, savings 0 ≤ 1, and at a concrete calculation record whose investor
savings dominate its worker savings. -/
theorem crossover_year_monotone_witness :
    ((0:ℚ) ≤ 1 ∧
      crossOrd (calculateCrossoverPoint 100 0 1).years ≤
        crossOrd (calculateCrossoverPoint 100 0 0).years) ∧
    (crossOrd (calculateAllCrossoverPoints ⟨0, 0, 80000, 40000, 40000, 10000, 70000, 0⟩).investor.years ≤
      crossOrd (calculateAllCrossoverPoints ⟨0, 0, 80000, 40000, 40000, 10000, 70000, 0⟩).worker.years) :=
  ⟨⟨by norm_num, crossover_year_monotone.1 100 0 0 1 (by norm_num)⟩,
    crossover_year_monotone.2 ⟨0, 0, 80000, 40000, 40000, 10000, 70000, 0⟩ (by norm_num) (by norm_num)⟩

end WorkerToInvestor
